import Mathlib

/-!
Verification of the Easy Paper Importer plugin (obsidian-easy-paper-importer).

This file gives a shallow embedding of the plugin's core logic and proves
the specification claims about it:

* `parseDoi`            — src/doi.ts, DOI input normalisation (regex-based);
* `fetchPaperMetadata`  — src/doi.ts, status check of the CrossRef request;
* `normalizePaper`      — src/types.ts, total defaulting of a raw record;
* `buildFrontmatter`    — src/note.ts, YAML frontmatter rendering;
* `renderFilenameTemplate`, `getAuthorSurname` — note.ts snapshot variant
  (src/unnamed/part_000), filename template rendering;
* `PaperIndex.normaliseDoi` / `normalise` / `findDuplicate` / `persist`
  — indexer (PaperIndex class), duplicate index;
* `loadSettingsData` / `saveSettingsData` — main.ts persisted-blob handling;
* `submitStep`          — src/ui/doi-modal.ts, the import orchestration flow.

Strings are modelled as `List Char` at the lower level (`String.data`) so
that the regex behaviour of the source can be embedded as explicit
recursive scanners.  JavaScript's `trim`/`\s`/`toLowerCase` are modelled on
the ASCII range plus the usual extra code points (NBSP, LS, PS, BOM);
inputs exercising exotic Unicode whitespace are outside the model.
-/

namespace EPI

/-- JavaScript whitespace (the `\s` class / `String.prototype.trim` set),
restricted to the code points that matter here. -/
def isWs (c : Char) : Bool :=
  c = ' ' || c = '\t' || c = '\n' || c = '\r' || c = '\x0b' || c = '\x0c' ||
  c = '\u00A0' || c = '\u2028' || c = '\u2029' || c = '\uFEFF'

/-- JavaScript line terminators: the characters that `.` in a regex
(without the `s` flag) does not match. -/
def lineTerm (c : Char) : Bool :=
  c = '\n' || c = '\r' || c = '\u2028' || c = '\u2029'

/-- ASCII lowercasing, the fragment of `String.prototype.toLowerCase`
relevant to DOI strings. -/
def lowerAscii (c : Char) : Char :=
  if 'A' ≤ c && c ≤ 'Z' then Char.ofNat (c.toNat + 32) else c

/-- `String.prototype.trim` on a character list. -/
def trimL (s : List Char) : List Char :=
  ((s.dropWhile isWs).reverse.dropWhile isWs).reverse

/-- `String.prototype.toLowerCase` on a character list (ASCII fragment). -/
def toLowerL (s : List Char) : List Char := s.map lowerAscii

/-- Case-sensitive "starts with" on character lists (pattern first). -/
def startsWithL : List Char → List Char → Bool
  | [], _ => true
  | _ :: _, [] => false
  | p :: ps, c :: cs => p = c && startsWithL ps cs

/-- Case-insensitive "starts with" on character lists (pattern first),
modelling a regex literal under the `i` flag. -/
def ciStartsWith : List Char → List Char → Bool
  | [], _ => true
  | _ :: _, [] => false
  | p :: ps, c :: cs => (lowerAscii p = lowerAscii c) && ciStartsWith ps cs

/-- The literal the URL regex of `parseDoi` pivots on. -/
def doiOrgL : List Char := "doi.org/".data

/-- Number of positions of `l` at which `doi.org/` occurs
(case-insensitively). -/
def occCount : List Char → Nat
  | [] => 0
  | c :: cs => (if ciStartsWith doiOrgL (c :: cs) then 1 else 0) + occCount cs

/-!
`src/doi.ts`, lines 10–19:

```
export function parseDoi(input: string): string {
  const trimmed = input.trim();
  const urlMatch = trimmed.match(/(?:https?:\/\/)?(?:dx\.)?doi\.org\/(.+)/i);
  if (urlMatch?.[1]) return urlMatch[1];
  const doiMatch = trimmed.match(/^(10\.\d{4,}(?:\.\d+)*\/.+)$/);
  if (doiMatch?.[1]) return doiMatch[1];
  return trimmed;
}
```

The first regex is unanchored.  Its optional prefixes `(?:https?:\/\/)?`
and `(?:dx\.)?` do not influence the capture group, which always consists
of the characters following a `doi.org/` occurrence, up to (exclusive) the
first line terminator, and must be non-empty.  The leftmost-match rule of
JavaScript `match` therefore returns the capture of the first `doi.org/`
occurrence that is followed by at least one non-line-terminator character:
prefixes can shift a match start at most 11 characters to the left, and two
`doi.org/` occurrences are at least 8 characters apart, so the optional
prefixes can never promote a later occurrence over an earlier one (the
would-be prefix text would have to overlap the earlier occurrence's
`doi.org/` characters, which do not match `https?://` or `dx.`).
`urlCaptureL` scans for exactly that first valid occurrence.
-/

/-- The value of the capture group of
`/(?:https?:\/\/)?(?:dx\.)?doi\.org\/(.+)/i` on a character list, if the
regex matches. -/
def urlCaptureL : List Char → Option (List Char)
  | [] => none
  | c :: cs =>
    if ciStartsWith doiOrgL (c :: cs) then
      -- drop the 8 characters of `doi.org/` ⇒ drop 7 from the tail;
      -- the capture `(.+)` is non-empty and stops at a line terminator
      if ((cs.drop 7).takeWhile (fun ch => !(lineTerm ch))).isEmpty then
        urlCaptureL cs
      else some ((cs.drop 7).takeWhile (fun ch => !(lineTerm ch)))
    else urlCaptureL cs

/-- `parseDoi` (src/doi.ts) on a character list.  In the source, when the
anchored DOI-shape regex `^(10\.\d{4,}(?:\.\d+)*\/.+)$` matches, its
capture group is the entire trimmed input, and the fallthrough also
returns the trimmed input, so both non-URL branches return `trimmed`. -/
def parseDoiL (s : List Char) : List Char :=
  let trimmed := trimL s
  match urlCaptureL trimmed with
  | some cap => cap
  | none => trimmed

/-- `parseDoi` (src/doi.ts, lines 10–19). -/
def parseDoi (input : String) : String := String.mk (parseDoiL input.data)

/-!
The `PaperIndex` duplicate index (the `indexer.ts` snapshot bundled in the
repository).  Key normalisation, lines 53–63:

```
private normalise(s?: string) {
  return (s || "").toLowerCase().trim();
}
private normaliseDoi(s?: string) {
  if (!s) return "";
  let doi = (s || "").toLowerCase().trim();
  doi = doi.replace(/^https?:\/\/(dx\.)?doi\.org\//, "");
  doi = doi.replace(/^doi:\s*/, "");
  return doi;
}
```
-/

/-- One anchored `replace(/^https?:\/\/(dx\.)?doi\.org\//, "")` step.  The
input is already lowercased, so the case-sensitive regex reduces to the
four concrete head shapes (the two scheme spellings × optional `dx.`),
which are mutually exclusive. -/
def stripUrlHead (s : List Char) : List Char :=
  if startsWithL "https://dx.doi.org/".data s then s.drop 19
  else if startsWithL "https://doi.org/".data s then s.drop 16
  else if startsWithL "http://dx.doi.org/".data s then s.drop 18
  else if startsWithL "http://doi.org/".data s then s.drop 15
  else s

/-- One anchored `replace(/^doi:\s*/, "")` step. -/
def stripDoiColon (s : List Char) : List Char :=
  if startsWithL "doi:".data s then (s.drop 4).dropWhile isWs else s

/-- `PaperIndex.normaliseDoi` on a character list. -/
def normaliseDoiL (s : List Char) : List Char :=
  if s.isEmpty then []
  else stripDoiColon (stripUrlHead (trimL (toLowerL s)))

/-- `PaperIndex.normaliseDoi`. -/
def normaliseDoi (s : String) : String := String.mk (normaliseDoiL s.data)

/-- `PaperIndex.normalise` (title key normalisation). -/
def normalise (s : String) : String := String.mk (trimL (toLowerL s.data))

end EPI

/-! Sanity checks for the DOI model (concrete evaluations). -/

example : EPI.parseDoi "https://doi.org/10.1/a" = "10.1/a" := by decide
example : EPI.parseDoi "10.1/a" = "10.1/a" := by decide
example : EPI.parseDoi "doi:10.1/a" = "doi:10.1/a" := by decide
example : EPI.parseDoi "  10.1234/example " = "10.1234/example" := by decide
example : EPI.parseDoi "HTTPS://DX.DOI.ORG/10.5/xy" = "10.5/xy" := by decide
example : EPI.parseDoi "https://example.com/see/doi.org/10.1/x" = "10.1/x" := by
  decide
example : EPI.parseDoi "doi.org/" = "doi.org/" := by decide
example :
    EPI.parseDoi "https://doi.org/https://doi.org/10.1/a"
      = "https://doi.org/10.1/a" := by decide
example : EPI.normaliseDoi "doi:10.1/a" = "10.1/a" := by decide
example : EPI.normaliseDoi "HTTPS://doi.org/10.1234/AbC" = "10.1234/abc" := by
  decide
example : EPI.normaliseDoi "dx.doi.org/10.1/x" = "dx.doi.org/10.1/x" := by
  decide

namespace EPI

/-! ### Supporting lemmas about the DOI scanner -/

theorem dropWhile_eq_self_of {p : Char → Bool} {l : List Char}
    (h : ∀ c ∈ l, p c = false) : l.dropWhile p = l := by
  cases l with
  | nil => rfl
  | cons c cs => simp [List.dropWhile_cons, h c (List.mem_cons_self _ _)]

/-- A whitespace-free list is a fixpoint of `trimL`. -/
theorem trimL_eq_self {l : List Char} (h : ∀ c ∈ l, isWs c = false) :
    trimL l = l := by
  unfold trimL
  rw [dropWhile_eq_self_of h, dropWhile_eq_self_of (by
    intro c hc
    exact h c (by simpa using hc)), List.reverse_reverse]

theorem ciStartsWith_append {p : List Char} :
    ∀ {l : List Char} (m : List Char), ciStartsWith p l = true →
      ciStartsWith p (l ++ m) = true := by
  induction p with
  | nil => intro l m _; rfl
  | cons a ps ih =>
    intro l m h
    cases l with
    | nil => exact absurd h (by simp [ciStartsWith])
    | cons c cs =>
      rw [ciStartsWith, Bool.and_eq_true] at h
      rw [List.cons_append, ciStartsWith, Bool.and_eq_true]
      exact ⟨h.1, ih m h.2⟩

theorem occCount_le_append (l₁ l₂ : List Char) :
    occCount l₁ ≤ occCount (l₁ ++ l₂) := by
  induction l₁ with
  | nil => exact Nat.zero_le _
  | cons c cs ih =>
    rw [List.cons_append, occCount, occCount]
    by_cases hs : ciStartsWith doiOrgL (c :: cs) = true
    · rw [if_pos hs, if_pos (by simpa using ciStartsWith_append l₂ hs)]
      omega
    · rw [if_neg hs]
      have : (0:Nat) ≤ if ciStartsWith doiOrgL (c :: cs ++ l₂) then 1 else 0 :=
        Nat.zero_le _
      omega

theorem occCount_tail_le (c : Char) (cs : List Char) :
    occCount cs ≤ occCount (c :: cs) := by
  rw [occCount]; omega

theorem occCount_drop_le : ∀ (n : Nat) (l : List Char),
    occCount (l.drop n) ≤ occCount l := by
  intro n l
  induction l generalizing n with
  | nil => simp
  | cons c cs ih =>
    cases n with
    | zero => exact Nat.le_refl _
    | succ m =>
      calc occCount ((c :: cs).drop (m + 1)) = occCount (cs.drop m) := rfl
        _ ≤ occCount cs := ih m
        _ ≤ occCount (c :: cs) := occCount_tail_le c cs

theorem occCount_takeWhile_le (p : Char → Bool) (l : List Char) :
    occCount (l.takeWhile p) ≤ occCount l := by
  conv_rhs => rw [← List.takeWhile_append_dropWhile (p := p) (l := l)]
  exact occCount_le_append _ _

/-- If `doi.org/` never occurs, the URL regex does not match. -/
theorem urlCaptureL_eq_none {l : List Char} (h : occCount l = 0) :
    urlCaptureL l = none := by
  induction l with
  | nil => rfl
  | cons c cs ih =>
    rw [occCount] at h
    have hs : ¬ ciStartsWith doiOrgL (c :: cs) = true := by
      intro hb
      rw [if_pos hb] at h
      omega
    rw [urlCaptureL, if_neg hs]
    exact ih (by rw [if_neg hs] at h; omega)

/-- The capture of the URL regex is a sublist of the scanned list. -/
theorem urlCaptureL_sublist : ∀ {l cap : List Char},
    urlCaptureL l = some cap → cap.Sublist l := by
  intro l
  induction l with
  | nil => intro cap h; exact absurd h (by simp [urlCaptureL])
  | cons c cs ih =>
    intro cap h
    rw [urlCaptureL] at h
    by_cases hs : ciStartsWith doiOrgL (c :: cs) = true
    · rw [if_pos hs] at h
      by_cases he : ((cs.drop 7).takeWhile (fun ch => !(lineTerm ch))).isEmpty
      · rw [if_pos he] at h
        exact (ih h).cons c
      · rw [if_neg he, Option.some.injEq] at h
        subst h
        exact (((List.takeWhile_sublist _).trans (List.drop_sublist 7 cs)).cons c)
    · rw [if_neg hs] at h
      exact (ih h).cons c

/-- With at most one `doi.org/` occurrence, the capture contains none. -/
theorem occCount_capture_eq_zero : ∀ {l cap : List Char},
    occCount l ≤ 1 → urlCaptureL l = some cap → occCount cap = 0 := by
  intro l
  induction l with
  | nil => intro cap _ h; exact absurd h (by simp [urlCaptureL])
  | cons c cs ih =>
    intro cap h1 h2
    rw [urlCaptureL] at h2
    by_cases hs : ciStartsWith doiOrgL (c :: cs) = true
    · have hcs : occCount cs = 0 := by
        rw [occCount, if_pos hs] at h1; omega
      by_cases he : ((cs.drop 7).takeWhile (fun ch => !(lineTerm ch))).isEmpty
      · rw [if_pos hs, if_pos he] at h2
        exact absurd h2 (by rw [urlCaptureL_eq_none hcs]; simp)
      · rw [if_pos hs, if_neg he, Option.some.injEq] at h2
        subst h2
        have := (occCount_takeWhile_le (fun ch => !(lineTerm ch)) (cs.drop 7)).trans
          (occCount_drop_le 7 cs)
        omega
    · rw [if_neg hs] at h2
      rw [occCount, if_neg hs] at h1
      exact ih (by omega) h2

theorem parseDoiL_eq (s : List Char) :
    parseDoiL s = match urlCaptureL (trimL s) with
      | some cap => cap
      | none => trimL s := rfl

/-- C1, amended.  Idempotency of `parseDoi` holds on inputs whose trimmed
form is whitespace-free and contains at most one occurrence of
`doi.org/`. -/
theorem parseDoi_idem_of_simple (x : String)
    (h1 : ∀ c ∈ trimL x.data, isWs c = false)
    (h2 : occCount (trimL x.data) ≤ 1) :
    parseDoi "https://doi.org/10.1/a" = "10.1/a" ∧
    parseDoi "doi:10.1/a" = "doi:10.1/a" ∧
    parseDoi "10.1/a" = "10.1/a" ∧
    parseDoi (parseDoi x) = parseDoi x := by
  refine ⟨by decide, by decide, by decide, ?_⟩
  show String.mk (parseDoiL (parseDoiL x.data)) = String.mk (parseDoiL x.data)
  congr 1
  rw [parseDoiL_eq x.data]
  cases hU : urlCaptureL (trimL x.data) with
  | none =>
    rw [parseDoiL_eq, trimL_eq_self h1, hU]
  | some cap =>
    have hsub := urlCaptureL_sublist hU
    have hnw : ∀ c ∈ cap, isWs c = false := fun c hc => h1 c (hsub.subset hc)
    have hocc : occCount cap = 0 := occCount_capture_eq_zero h2 hU
    rw [parseDoiL_eq, trimL_eq_self hnw, urlCaptureL_eq_none hocc]

/-- C1 witness: the amended theorem applied at a concrete input. -/
theorem parseDoi_idem_of_simple_witness :
    parseDoi "https://doi.org/10.1/a" = "10.1/a" ∧
    parseDoi "doi:10.1/a" = "doi:10.1/a" ∧
    parseDoi "10.1/a" = "10.1/a" ∧
    parseDoi (parseDoi "10.9999/zzz") = parseDoi "10.9999/zzz" :=
  parseDoi_idem_of_simple "10.9999/zzz" (by decide) (by decide)

/-- C1 counterexample: `parseDoi` is not idempotent in general (the
unanchored URL regex strips only one `doi.org/` layer per application),
and the `doi:` prefix is not stripped at all, so the original claim fails
on these inputs. -/
theorem parseDoi_idem_counterexample :
    parseDoi (parseDoi "https://doi.org/https://doi.org/10.1/a") ≠
      parseDoi "https://doi.org/https://doi.org/10.1/a" ∧
    parseDoi "doi:10.1/a" ≠ "10.1/a" := by
  exact ⟨by decide, by decide⟩

theorem takeWhile_eq_self_of {p : Char → Bool} {l : List Char}
    (h : ∀ c ∈ l, p c = true) : l.takeWhile p = l := by
  induction l with
  | nil => rfl
  | cons c cs ih =>
    simp [List.takeWhile_cons, h c (List.mem_cons_self _ _),
      ih fun d hd => h d (List.mem_cons_of_mem _ hd)]

/-- `ciStartsWith p` only inspects the first `p.length` characters. -/
theorem ciStartsWith_congr_take : ∀ (p l₁ l₂ : List Char),
    l₁.take p.length = l₂.take p.length →
    ciStartsWith p l₁ = ciStartsWith p l₂ := by
  intro p
  induction p with
  | nil => intro l₁ l₂ _; rfl
  | cons a ps ih =>
    intro l₁ l₂ h
    cases l₁ with
    | nil =>
      cases l₂ with
      | nil => rfl
      | cons c₂ cs₂ => simp [List.take] at h
    | cons c₁ cs₁ =>
      cases l₂ with
      | nil => simp [List.take] at h
      | cons c₂ cs₂ =>
        simp only [List.length_cons, List.take, List.cons.injEq] at h
        rw [ciStartsWith, ciStartsWith, h.1, ih cs₁ cs₂ h.2]

theorem ciStartsWith_doiOrg_append (r : List Char) :
    ciStartsWith doiOrgL (doiOrgL ++ r) = true := rfl

/-- The URL regex of `parseDoi` captures everything after the first
`doi.org/` occurrence, provided that occurrence is followed by at least
one character and no line terminator interferes. -/
theorem urlCaptureL_first : ∀ (a b : List Char),
    occCount (a ++ doiOrgL.take 7) = 0 → b ≠ [] →
    (∀ c ∈ b, lineTerm c = false) →
    urlCaptureL (a ++ (doiOrgL ++ b)) = some b := by
  intro a
  induction a with
  | nil =>
    intro b hocc hb hlt
    show urlCaptureL (doiOrgL ++ b) = some b
    have hcons : doiOrgL ++ b = 'd' :: ("oi.org/".data ++ b) := rfl
    have hcond : ciStartsWith doiOrgL ('d' :: ("oi.org/".data ++ b)) = true :=
      ciStartsWith_doiOrg_append b
    rw [hcons, urlCaptureL, if_pos hcond]
    have hdrop : ("oi.org/".data ++ b).drop 7 = b := by
      have h7 : ("oi.org/".data ++ b).drop ("oi.org/".data.length) = b :=
        List.drop_left _ _
      rw [show ("oi.org/".data.length) = 7 from rfl] at h7
      exact h7
    rw [hdrop, takeWhile_eq_self_of (by intro c hc; simp [hlt c hc])]
    rw [if_neg (by simp [List.isEmpty_iff, hb])]
  | cons ch a' ih =>
    intro b hocc hb hlt
    rw [List.cons_append, occCount] at hocc
    have hno : ciStartsWith doiOrgL (ch :: (a' ++ doiOrgL.take 7)) = false := by
      by_cases hx : ciStartsWith doiOrgL (ch :: (a' ++ doiOrgL.take 7)) = true
      · rw [if_pos (by simpa using hx)] at hocc; omega
      · simpa using hx
    -- the head position cannot start a `doi.org/` occurrence: the two
    -- lists agree on their first `8 = doiOrgL.length` characters
    have htail : (doiOrgL ++ b).take (7 - a'.length)
        = (doiOrgL.take 7).take (7 - a'.length) := by
      rw [List.take_append_eq_append_take, List.take_take,
        Nat.min_eq_left (Nat.sub_le _ _)]
      have h0 : 7 - a'.length - doiOrgL.length = 0 := by
        have h8 : doiOrgL.length = 8 := rfl
        omega
      rw [h0, List.take_zero, List.append_nil]
    have htake : (ch :: (a' ++ (doiOrgL ++ b))).take doiOrgL.length =
        (ch :: (a' ++ doiOrgL.take 7)).take doiOrgL.length := by
      show (ch :: (a' ++ (doiOrgL ++ b))).take (7 + 1) =
        (ch :: (a' ++ doiOrgL.take 7)).take (7 + 1)
      rw [List.take_succ_cons, List.take_succ_cons,
        List.take_append_eq_append_take, htail,
        List.take_append_eq_append_take]
    have hnostart : ciStartsWith doiOrgL (ch :: (a' ++ (doiOrgL ++ b))) = false := by
      rw [ciStartsWith_congr_take doiOrgL _ _ htake]
      exact hno
    show urlCaptureL (ch :: (a' ++ (doiOrgL ++ b))) = some b
    rw [urlCaptureL, if_neg (by simp [hnostart])]
    have hrec := ih b (by rw [if_neg (by simp [hno])] at hocc; omega) hb hlt
    rw [← List.append_assoc] at hrec ⊢
    exact hrec

/-- C10, amended: `parseDoi`'s URL match is indeed unanchored, but the
remainder after the first `doi.org/` occurrence must be non-empty (and the
capture stops at a line terminator); for `"doi.org/"` itself the regex
fails and the input passes through unchanged. -/
theorem parseDoi_strips_first_doiOrg (s : String) (a b : List Char)
    (hsplit : trimL s.data = a ++ (doiOrgL ++ b))
    (hfirst : occCount (a ++ doiOrgL.take 7) = 0)
    (hb : b ≠ [])
    (hlt : ∀ c ∈ b, lineTerm c = false) :
    parseDoi s = String.mk b := by
  show String.mk (parseDoiL s.data) = String.mk b
  congr 1
  rw [parseDoiL_eq, hsplit, urlCaptureL_first a b hfirst hb hlt]

/-- C10 witness: the amended theorem applied at the claim's example. -/
theorem parseDoi_strips_first_doiOrg_witness :
    parseDoi "https://example.com/see/doi.org/10.1/x" = "10.1/x" :=
  parseDoi_strips_first_doiOrg "https://example.com/see/doi.org/10.1/x"
    "https://example.com/see/".data "10.1/x".data
    (by decide) (by decide) (by decide) (by decide)

/-- C10 counterexample: for the input `"doi.org/"`, whose trimmed form
contains `doi.org/` with an empty remainder, `parseDoi` does not return
that (empty) remainder — the regex requires a non-empty capture, so the
input passes through unchanged. -/
theorem parseDoi_strips_first_doiOrg_counterexample :
    parseDoi "doi.org/" ≠ "" ∧ parseDoi "doi.org/" = "doi.org/" := by
  exact ⟨by decide, by decide⟩

/-! ### C7: the index's DOI normalisation versus the Fetcher's parse -/

theorem startsWithL_iff : ∀ (p l : List Char),
    startsWithL p l = true ↔ ∃ r, l = p ++ r := by
  intro p
  induction p with
  | nil => intro l; simp [startsWithL]
  | cons a ps ih =>
    intro l
    cases l with
    | nil =>
      simp only [startsWithL, List.cons_append]
      constructor
      · intro h; exact absurd h (by simp)
      · rintro ⟨r, hr⟩; exact absurd hr (by simp)
    | cons c cs =>
      rw [startsWithL, Bool.and_eq_true, decide_eq_true_eq, ih cs]
      constructor
      · rintro ⟨hac, r, hr⟩
        exact ⟨r, by rw [List.cons_append, hac, hr]⟩
      · rintro ⟨r, hr⟩
        rw [List.cons_append] at hr
        injection hr with h1 h2
        exact ⟨h1.symm, r, h2⟩

theorem occCount_pos (x : List Char) : ∀ (r : List Char),
    1 ≤ occCount (x ++ (doiOrgL ++ r)) := by
  induction x with
  | nil =>
    intro r
    have hcons : doiOrgL ++ r = 'd' :: ("oi.org/".data ++ r) := rfl
    show 1 ≤ occCount (doiOrgL ++ r)
    rw [hcons, occCount, ← hcons, if_pos (ciStartsWith_doiOrg_append r)]
    omega
  | cons c cs ih =>
    intro r
    calc 1 ≤ occCount (cs ++ (doiOrgL ++ r)) := ih r
      _ ≤ occCount (c :: (cs ++ (doiOrgL ++ r))) := occCount_tail_le _ _

/-- A list whose head matches `…doi.org/` contains a `doi.org/` occurrence. -/
theorem occCount_pos_of_startsWith (p l : List Char)
    (h : startsWithL (p ++ doiOrgL) l = true) : 1 ≤ occCount l := by
  rcases (startsWithL_iff _ _).mp h with ⟨r, hr⟩
  rw [hr, List.append_assoc]
  exact occCount_pos p r

theorem toLowerL_eq_self {l : List Char} (h : ∀ c ∈ l, lowerAscii c = c) :
    toLowerL l = l := by
  induction l with
  | nil => rfl
  | cons c cs ih =>
    rw [toLowerL, List.map_cons, h c (List.mem_cons_self _ _)]
    have := ih fun d hd => h d (List.mem_cons_of_mem _ hd)
    rw [toLowerL] at this
    rw [this]

theorem lineTerm_eq_false_of_ws (c : Char) (h : isWs c = false) :
    lineTerm c = false := by
  simp only [isWs, Bool.or_eq_false_iff] at h
  simp only [lineTerm, Bool.or_eq_false_iff]
  exact ⟨⟨⟨h.1.1.1.1.1.1.1.2, h.1.1.1.1.1.1.2⟩, h.1.1.2⟩, h.1.2⟩

/-- C7 counterexample: `PaperIndex.normaliseDoi` is not the composition of
lowercasing/trimming with `parseDoi`'s prefix stripping — `normaliseDoi`
strips a leading `doi:` while `parseDoi` does not. -/
theorem normaliseDoi_vs_parseDoi_counterexample :
    normaliseDoi "doi:10.1/a" = "10.1/a" ∧
    parseDoi (String.mk (trimL (toLowerL ("doi:10.1/a").data))) = "doi:10.1/a" ∧
    normaliseDoi "doi:10.1/a" ≠
      parseDoi (String.mk (trimL (toLowerL ("doi:10.1/a").data))) := by
  exact ⟨by decide, by decide, by decide⟩

/-- C7, amended: the two normalisations agree on bare DOI bodies and on
standard `https://doi.org/…` URLs, for lowercase whitespace-free bodies
that contain no further `doi.org/` and no leading `doi:`. -/
theorem normaliseDoi_agrees_parseDoi (d : String)
    (h1 : d.data ≠ [])
    (h2 : ∀ c ∈ d.data, isWs c = false ∧ lowerAscii c = c)
    (h3 : occCount d.data = 0)
    (h4 : startsWithL "doi:".data d.data = false) :
    normaliseDoi d = d ∧ parseDoi d = d ∧
    normaliseDoi ("https://doi.org/" ++ d) = d ∧
    parseDoi ("https://doi.org/" ++ d) = d := by
  have hlow : toLowerL d.data = d.data := toLowerL_eq_self fun c hc => (h2 c hc).2
  have htrim : trimL d.data = d.data := trimL_eq_self fun c hc => (h2 c hc).1
  have hn1 : startsWithL "https://dx.doi.org/".data d.data = false := by
    by_cases hx : startsWithL "https://dx.doi.org/".data d.data = true
    · exfalso
      have hd : ("https://dx.".data ++ doiOrgL) = "https://dx.doi.org/".data := rfl
      have := occCount_pos_of_startsWith "https://dx.".data d.data (by rw [hd]; exact hx)
      omega
    · simpa using hx
  have hn2 : startsWithL "https://doi.org/".data d.data = false := by
    by_cases hx : startsWithL "https://doi.org/".data d.data = true
    · exfalso
      have hd : ("https://".data ++ doiOrgL) = "https://doi.org/".data := rfl
      have := occCount_pos_of_startsWith "https://".data d.data (by rw [hd]; exact hx)
      omega
    · simpa using hx
  have hn3 : startsWithL "http://dx.doi.org/".data d.data = false := by
    by_cases hx : startsWithL "http://dx.doi.org/".data d.data = true
    · exfalso
      have hd : ("http://dx.".data ++ doiOrgL) = "http://dx.doi.org/".data := rfl
      have := occCount_pos_of_startsWith "http://dx.".data d.data (by rw [hd]; exact hx)
      omega
    · simpa using hx
  have hn4 : startsWithL "http://doi.org/".data d.data = false := by
    by_cases hx : startsWithL "http://doi.org/".data d.data = true
    · exfalso
      have hd : ("http://".data ++ doiOrgL) = "http://doi.org/".data := rfl
      have := occCount_pos_of_startsWith "http://".data d.data (by rw [hd]; exact hx)
      omega
    · simpa using hx
  have hne : d.data.isEmpty = false := by
    cases hd : d.data with
    | nil => exact absurd hd h1
    | cons c cs => rfl
  refine ⟨?_, ?_, ?_, ?_⟩
  · -- normaliseDoi on the bare body
    show String.mk (normaliseDoiL d.data) = d
    rw [normaliseDoiL, if_neg (by rw [hne]; simp), hlow, htrim]
    rw [stripUrlHead, if_neg (by rw [hn1]; simp), if_neg (by rw [hn2]; simp),
      if_neg (by rw [hn3]; simp), if_neg (by rw [hn4]; simp)]
    rw [stripDoiColon, if_neg (by rw [h4]; simp)]
  · -- parseDoi on the bare body
    show String.mk (parseDoiL d.data) = d
    rw [parseDoiL_eq, htrim, urlCaptureL_eq_none h3]
  · -- normaliseDoi on the canonical URL
    show String.mk (normaliseDoiL ("https://doi.org/" ++ d).data) = d
    have hdata : ("https://doi.org/" ++ d).data = "https://doi.org/".data ++ d.data :=
      String.data_append _ _
    have hlow2 : toLowerL ("https://doi.org/".data ++ d.data) =
        "https://doi.org/".data ++ d.data := by
      rw [toLowerL, List.map_append]
      rw [show List.map lowerAscii "https://doi.org/".data = "https://doi.org/".data from rfl]
      rw [show List.map lowerAscii d.data = toLowerL d.data from rfl, hlow]
    have hpre : ∀ c ∈ "https://doi.org/".data, isWs c = false := by decide
    have hws2 : ∀ c ∈ "https://doi.org/".data ++ d.data, isWs c = false := by
      intro c hc
      rcases List.mem_append.mp hc with hu | hd2
      · exact hpre c hu
      · exact (h2 c hd2).1
    have htrim2 : trimL ("https://doi.org/".data ++ d.data) =
        "https://doi.org/".data ++ d.data := trimL_eq_self hws2
    have hnp : startsWithL "https://dx.doi.org/".data
        ("https://doi.org/".data ++ d.data) = false := rfl
    have hyp : startsWithL "https://doi.org/".data
        ("https://doi.org/".data ++ d.data) = true := by
      exact (startsWithL_iff _ _).mpr ⟨d.data, rfl⟩
    rw [hdata, normaliseDoiL, if_neg (by
      rw [show ("https://doi.org/".data ++ d.data).isEmpty = false from rfl]; simp)]
    rw [hlow2, htrim2, stripUrlHead, if_neg (by rw [hnp]; simp), if_pos hyp]
    have hdrop : ("https://doi.org/".data ++ d.data).drop 16 = d.data := by
      have h16 : ("https://doi.org/".data ++ d.data).drop
          ("https://doi.org/".data.length) = d.data := List.drop_left _ _
      rw [show ("https://doi.org/".data.length) = 16 from rfl] at h16
      exact h16
    rw [hdrop, stripDoiColon, if_neg (by rw [h4]; simp)]
  · -- parseDoi on the canonical URL
    show String.mk (parseDoiL ("https://doi.org/" ++ d).data) = d
    have hdata : ("https://doi.org/" ++ d).data = "https://doi.org/".data ++ d.data :=
      String.data_append _ _
    have hpre : ∀ c ∈ "https://doi.org/".data, isWs c = false := by decide
    have hws2 : ∀ c ∈ "https://doi.org/".data ++ d.data, isWs c = false := by
      intro c hc
      rcases List.mem_append.mp hc with hu | hd2
      · exact hpre c hu
      · exact (h2 c hd2).1
    have htrim2 : trimL ("https://doi.org/".data ++ d.data) =
        "https://doi.org/".data ++ d.data := trimL_eq_self hws2
    have hassoc : "https://doi.org/".data ++ d.data =
        "https://".data ++ (doiOrgL ++ d.data) := by
      rw [← List.append_assoc,
        show "https://".data ++ doiOrgL = "https://doi.org/".data from rfl]
    rw [hdata, parseDoiL_eq, htrim2, hassoc,
      urlCaptureL_first "https://".data d.data (by decide) h1
        (fun c hc => lineTerm_eq_false_of_ws c (h2 c hc).1)]

/-- C7 witness: the amended agreement applied at a concrete DOI body. -/
theorem normaliseDoi_agrees_parseDoi_witness :
    normaliseDoi "10.1234/x" = "10.1234/x" ∧
    parseDoi "10.1234/x" = "10.1234/x" ∧
    normaliseDoi ("https://doi.org/" ++ "10.1234/x") = "10.1234/x" ∧
    parseDoi ("https://doi.org/" ++ "10.1234/x") = "10.1234/x" :=
  normaliseDoi_agrees_parseDoi "10.1234/x" (by decide) (by decide) (by decide)
    (by decide)

end EPI

namespace EPI

/-! ### The data model (src/types.ts) -/

/-- `PaperMetadata` (src/types.ts): the canonical, total paper record.
`year`/`month` are nullable by design (`Option Int`). -/
structure PaperMetadata where
  title : String
  authors : List String
  abstract : String
  journal : String
  volume : String
  issue : String
  pages : String
  year : Option Int
  month : Option Int
  doi : String
  doiUrl : String
  pdfUrl : String
  publisher : String
  issn : List String
  subjects : List String
  deriving Repr, DecidableEq

/-- `Partial<PaperMetadata>`: every field may be `undefined` (the outer
`Option`).  For `year`/`month` the inner `Option` is the number-or-`null`
value. -/
structure RawPaper where
  title : Option String := none
  authors : Option (List String) := none
  abstract : Option String := none
  journal : Option String := none
  volume : Option String := none
  issue : Option String := none
  pages : Option String := none
  year : Option (Option Int) := none
  month : Option (Option Int) := none
  doi : Option String := none
  doiUrl : Option String := none
  pdfUrl : Option String := none
  publisher : Option String := none
  issn : Option (List String) := none
  subjects : Option (List String) := none
  deriving Repr, DecidableEq

/-- `normalizePaper` (src/types.ts, lines 27–45).  `String(x)` applied to a
value that is already a string is the identity, so the `String(...)`
coercions become identities here; `raw.year ?? null` is `Option.join` on
the absence/null nesting. -/
def normalizePaper (raw : RawPaper) : PaperMetadata where
  title := raw.title.getD ""
  authors := (raw.authors.getD []).map (fun a => a)
  abstract := raw.abstract.getD ""
  journal := raw.journal.getD ""
  volume := raw.volume.getD ""
  issue := raw.issue.getD ""
  pages := raw.pages.getD ""
  year := raw.year.join
  month := raw.month.join
  doi := raw.doi.getD ""
  doiUrl := raw.doiUrl.getD ""
  pdfUrl := raw.pdfUrl.getD ""
  publisher := raw.publisher.getD ""
  issn := (raw.issn.getD []).map (fun i => i)
  subjects := (raw.subjects.getD []).map (fun s => s)

/-- A full record viewed as a partial one (every field present), which is
how a `PaperMetadata` value is passed where `Partial<PaperMetadata>` is
expected in TypeScript. -/
def PaperMetadata.toRaw (p : PaperMetadata) : RawPaper where
  title := some p.title
  authors := some p.authors
  abstract := some p.abstract
  journal := some p.journal
  volume := some p.volume
  issue := some p.issue
  pages := some p.pages
  year := some p.year
  month := some p.month
  doi := some p.doi
  doiUrl := some p.doiUrl
  pdfUrl := some p.pdfUrl
  publisher := some p.publisher
  issn := some p.issn
  subjects := some p.subjects

/-- C6: `normalizePaper` is total (by its result type every field is
populated) and idempotent — re-normalizing its own output is the identity,
and any already-total record is returned identically. -/
theorem normalizePaper_idempotent (raw : RawPaper) (p : PaperMetadata) :
    normalizePaper (normalizePaper raw).toRaw = normalizePaper raw ∧
    normalizePaper p.toRaw = p := by
  constructor
  · simp [normalizePaper, PaperMetadata.toRaw]
  · simp [normalizePaper, PaperMetadata.toRaw]

/-! ### The duplicate index (`PaperIndex`, indexer snapshot) -/

/-- Association-list lookup modelling property access `m[k]` on the plain
JavaScript objects used as maps by the index. -/
def alookup (m : List (String × String)) (k : String) : Option String :=
  (m.find? (fun e => e.1 = k)).map (fun e => e.2)

/-- The `IndexData` shape: `{byDOI, byTitle, meta:{version, lastBuilt}}`. -/
structure IndexData where
  byDOI : List (String × String)
  byTitle : List (String × String)
  metaVersion : Option Nat
  metaLastBuilt : Option String
  deriving Repr, DecidableEq

/-- JavaScript truthiness of a possibly-absent string property: absent
(`undefined`) and the empty string are both falsy. -/
def truthy : Option String → Bool
  | none => false
  | some s => !(s.isEmpty)

/-- `PaperIndex.findDuplicate` (indexer, lines 115–121):

```
findDuplicate({ doi, title }) {
  const d = this.normaliseDoi(doi);
  if (d && this.index.byDOI[d]) return { type: "doi", path: this.index.byDOI[d] };
  const t = this.normalise(title);
  if (t && this.index.byTitle[t]) return { type: "title", path: this.index.byTitle[t] };
  return null;
}
```

The result is the `(type, path)` pair, `none` for `null`. -/
def findDuplicate (idx : IndexData) (doiArg titleArg : Option String) :
    Option (String × String) :=
  let d := normaliseDoi (doiArg.getD "")
  if d ≠ "" ∧ truthy (alookup idx.byDOI d) then
    some ("doi", (alookup idx.byDOI d).getD "")
  else
    let t := normalise (titleArg.getD "")
    if t ≠ "" ∧ truthy (alookup idx.byTitle t) then
      some ("title", (alookup idx.byTitle t).getD "")
    else none

/-- The DOI branch of `findDuplicate`, shared by several theorems. -/
theorem findDuplicate_doi_case (idx : IndexData) (qdoi qtitle : String)
    (pd : String) (hd : normaliseDoi qdoi ≠ "")
    (hlook : alookup idx.byDOI (normaliseDoi qdoi) = some pd)
    (hp : pd ≠ "") :
    findDuplicate idx (some qdoi) (some qtitle) = some ("doi", pd) := by
  rw [findDuplicate]
  have htr : truthy (alookup idx.byDOI (normaliseDoi ((some qdoi).getD ""))) = true := by
    simp only [Option.getD_some, hlook, truthy]
    rw [Bool.not_eq_true']
    rw [Bool.eq_false_iff]
    intro hx
    exact hp ((String.isEmpty_iff _).mp hx)
  rw [if_pos ⟨by simpa using hd, htr⟩]
  simp [hlook]

/-- The title branch of `findDuplicate`. -/
theorem findDuplicate_title_case (idx : IndexData) (qdoi qtitle : String)
    (pt : String)
    (hdfail : normaliseDoi qdoi = "" ∨
      truthy (alookup idx.byDOI (normaliseDoi qdoi)) = false)
    (ht : normalise qtitle ≠ "")
    (hlook : alookup idx.byTitle (normalise qtitle) = some pt)
    (hp : pt ≠ "") :
    findDuplicate idx (some qdoi) (some qtitle) = some ("title", pt) := by
  rw [findDuplicate]
  rw [if_neg (by
    simp only [Option.getD_some]
    rcases hdfail with h | h
    · intro hcontra; exact hcontra.1 h
    · intro hcontra; rw [hcontra.2] at h; exact Bool.true_eq_false.mp h)]
  have htr : truthy (alookup idx.byTitle (normalise ((some qtitle).getD ""))) = true := by
    simp only [Option.getD_some, hlook, truthy]
    rw [Bool.not_eq_true']
    rw [Bool.eq_false_iff]
    intro hx
    exact hp ((String.isEmpty_iff _).mp hx)
  rw [if_pos ⟨by simpa using ht, htr⟩]
  simp [hlook]

/-- The no-match branch of `findDuplicate`. -/
theorem findDuplicate_none_case (idx : IndexData) (qdoi qtitle : String)
    (hdfail : normaliseDoi qdoi = "" ∨
      truthy (alookup idx.byDOI (normaliseDoi qdoi)) = false)
    (htfail : normalise qtitle = "" ∨
      truthy (alookup idx.byTitle (normalise qtitle)) = false) :
    findDuplicate idx (some qdoi) (some qtitle) = none := by
  rw [findDuplicate]
  rw [if_neg (by
    simp only [Option.getD_some]
    rcases hdfail with h | h
    · intro hcontra; exact hcontra.1 h
    · intro hcontra; rw [hcontra.2] at h; exact Bool.true_eq_false.mp h)]
  rw [if_neg (by
    simp only [Option.getD_some]
    rcases htfail with h | h
    · intro hcontra; exact hcontra.1 h
    · intro hcontra; rw [hcontra.2] at h; exact Bool.true_eq_false.mp h)]

/-- C4, amended: `findDuplicate` gives DOI matches priority over title
matches, provided the looked-up keys and stored paths are non-empty
strings (JavaScript truthiness makes an empty normalized key or an empty
stored path behave as "not found"). -/
theorem findDuplicate_priority (idx : IndexData) (qdoi qtitle : String) :
    (∀ pd, normaliseDoi qdoi ≠ "" →
      alookup idx.byDOI (normaliseDoi qdoi) = some pd → pd ≠ "" →
      findDuplicate idx (some qdoi) (some qtitle) = some ("doi", pd)) ∧
    (∀ pt, (normaliseDoi qdoi = "" ∨
        truthy (alookup idx.byDOI (normaliseDoi qdoi)) = false) →
      normalise qtitle ≠ "" →
      alookup idx.byTitle (normalise qtitle) = some pt → pt ≠ "" →
      findDuplicate idx (some qdoi) (some qtitle) = some ("title", pt)) ∧
    ((normaliseDoi qdoi = "" ∨
        truthy (alookup idx.byDOI (normaliseDoi qdoi)) = false) →
      (normalise qtitle = "" ∨
        truthy (alookup idx.byTitle (normalise qtitle)) = false) →
      findDuplicate idx (some qdoi) (some qtitle) = none) :=
  ⟨fun pd hd hl hp => findDuplicate_doi_case idx qdoi qtitle pd hd hl hp,
   fun pt hdf ht hl hp => findDuplicate_title_case idx qdoi qtitle pt hdf ht hl hp,
   fun hdf htf => findDuplicate_none_case idx qdoi qtitle hdf htf⟩

/-- C4 witness: the amended theorem applied at concrete indices. -/
theorem findDuplicate_priority_witness :
    findDuplicate
      { byDOI := [("10.1/x", "Papers/A.md")], byTitle := [("t", "Papers/B.md")],
        metaVersion := some 1, metaLastBuilt := none }
      (some "10.1/x") (some "t") = some ("doi", "Papers/A.md") :=
  (findDuplicate_priority
      { byDOI := [("10.1/x", "Papers/A.md")], byTitle := [("t", "Papers/B.md")],
        metaVersion := some 1, metaLastBuilt := none }
      "10.1/x" "t").1 "Papers/A.md" (by decide) (by decide) (by decide)

/-- An index state in which the DOI key is present but maps to the empty
string (a falsy value in JavaScript). -/
def emptyPathIndex : IndexData where
  byDOI := [("10.1/x", "")]
  byTitle := [("t", "Papers/B.md")]
  metaVersion := some 1
  metaLastBuilt := none

/-- C4 counterexample: when the byDOI map does contain the query's
normalized DOI but maps it to the empty string, JavaScript truthiness
skips the DOI branch and `findDuplicate` returns the title match instead
of the claimed DOI match. -/
theorem findDuplicate_priority_counterexample :
    alookup emptyPathIndex.byDOI (normaliseDoi "10.1/x") = some "" ∧
    findDuplicate emptyPathIndex (some "10.1/x") (some "t") =
      some ("title", "Papers/B.md") := by
  exact ⟨by decide, by decide⟩

end EPI

namespace EPI

/-! ### Settings and the persisted data blob (src/settings.ts, main.ts) -/

/-- `EasyPaperSettings` (src/settings.ts, lines 4–11). -/
structure EasyPaperSettings where
  paperFolder : String
  noteTitleFormat : String
  metadataFields : List String
  includeImportDate : Bool
  confirmDuplicateImports : Bool
  deriving Repr, DecidableEq

/-- `DEFAULT_SETTINGS` (src/settings.ts, lines 13–19). -/
def DEFAULT_SETTINGS : EasyPaperSettings where
  paperFolder := "Papers"
  noteTitleFormat := "\x7b\x7bfirst_authors\x7d\x7d_\x7b\x7byear\x7d\x7d"
  metadataFields := ["title", "authors", "year", "doi"]
  includeImportDate := true
  confirmDuplicateImports := true

/-- The persisted `data.json` blob: the reserved top-level `index` key plus
the flat user-settings section (modelled as all-or-nothing; the claims
only concern whether one section survives writes to the other). -/
structure DataBlob where
  index : Option IndexData
  settings : Option EasyPaperSettings
  deriving Repr, DecidableEq

/-- `PaperIndex.persist` (indexer, lines 123–127):

```
async persist() {
  this.index.meta = this.index.meta || {};
  this.index.meta.lastBuilt = new Date().toISOString();
  await this.plugin.saveData({ index: this.index });
}
```

`saveData` replaces the whole `data.json` with its argument, and the
argument contains only the `index` key — the previously saved blob
(including its settings section) is not consulted.  The current time is
passed in as `now`. -/
def persist (idx : IndexData) (now : String) (_saved : DataBlob) : DataBlob where
  index := some { idx with metaLastBuilt := some now }
  settings := none

/-- `loadSettings` (main.ts variant, doi.ts lines 369–374): reads the blob,
strips the reserved `index` key, and merges the remainder over
`DEFAULT_SETTINGS`. -/
def loadSettingsData (saved : DataBlob) : EasyPaperSettings :=
  saved.settings.getD DEFAULT_SETTINGS

/-- `saveSettings` (main.ts variant, doi.ts lines 376–380):
`saveData({ ...existing, ...this.settings })` — every settings key is
overwritten from memory and the other keys of the existing blob (the
reserved `index` key) are preserved. -/
def saveSettingsData (saved : DataBlob) (s : EasyPaperSettings) : DataBlob where
  index := saved.index
  settings := some s

/-- C2: evaluation at the failing input.  `saveSettings` does preserve the
index section, but `persist` saves `{ index }` as the entire blob and so
erases the settings section: after a persist the saved settings are gone
and a reload falls back to `DEFAULT_SETTINGS`. -/
theorem persist_erases_settings :
    (∀ (saved : DataBlob) (s : EasyPaperSettings),
      (saveSettingsData saved s).index = saved.index) ∧
    (persist
        { byDOI := [], byTitle := [], metaVersion := some 1, metaLastBuilt := none }
        "2024-01-01T00:00:00.000Z"
        { index := none,
          settings := some { DEFAULT_SETTINGS with paperFolder := "MyPapers" } }).settings
      = none ∧
    ({ index := none,
       settings := some { DEFAULT_SETTINGS with paperFolder := "MyPapers" } } :
        DataBlob).settings
      = some { DEFAULT_SETTINGS with paperFolder := "MyPapers" } ∧
    loadSettingsData
      (persist
        { byDOI := [], byTitle := [], metaVersion := some 1, metaLastBuilt := none }
        "2024-01-01T00:00:00.000Z"
        { index := none,
          settings := some { DEFAULT_SETTINGS with paperFolder := "MyPapers" } })
      = DEFAULT_SETTINGS := by
  exact ⟨fun saved s => rfl, by decide, by decide, by decide⟩

end EPI

namespace EPI

/-! ### The Fetcher's status check (src/doi.ts, lines 24–46) -/

/-- Abstraction of an HTTP response from the metadata service: the status
code together with (for a 200 response) the already-mapped metadata
record.  The JSON → `PaperMetadata` field mapping
(`parseCrossRefResponse`) is not the subject of any claim and is
represented by the mapped record itself. -/
structure HttpResponse where
  status : Nat
  paper : PaperMetadata

/-- `fetchPaperMetadata` (src/doi.ts): on a non-200 status the function
throws ``Failed to fetch DOI metadata: HTTP ${response.status}``;
otherwise it returns the parsed record. -/
def fetchPaperMetadata (resp : HttpResponse) : Except String PaperMetadata :=
  if resp.status ≠ 200 then
    Except.error ("Failed to fetch DOI metadata: HTTP " ++ toString resp.status)
  else Except.ok resp.paper

/-- Substring test on character lists (needle first). -/
def hasSub : List Char → List Char → Bool
  | n, [] => n.isEmpty
  | n, c :: cs => startsWithL n (c :: cs) || hasSub n cs

/-- Substring test on strings (needle first). -/
def strHasSub (needle hay : String) : Bool := hasSub needle.data hay.data

theorem startsWithL_self (l : List Char) : ∀ r, startsWithL l (l ++ r) = true := by
  intro r
  exact (startsWithL_iff _ _).mpr ⟨r, rfl⟩

/-- A needle occurring as a suffix is found by `hasSub`. -/
theorem hasSub_suffix (n : List Char) : ∀ (p : List Char), hasSub n (p ++ n) = true := by
  intro p
  induction p with
  | nil =>
    show hasSub n n = true
    cases hn : n with
    | nil => rfl
    | cons c cs =>
      rw [hasSub]
      have := startsWithL_self (c :: cs) []
      rw [List.append_nil] at this
      rw [this]
      rfl
  | cons x p' ih =>
    rw [List.cons_append, hasSub, ih, Bool.or_true]

/-! ### The note writer (src/note.ts, lines 11–17 and 131–155) -/

/-- Characters removed by `sanitiseFilename` (illegal in filenames). -/
def forbiddenFilenameChar (c : Char) : Bool :=
  c = '\\' || c = '/' || c = ':' || c = '*' || c = '?' || c = '"' ||
  c = '<' || c = '>' || c = '|'

theorem length_dropWhile_le (p : Char → Bool) (l : List Char) :
    (l.dropWhile p).length ≤ l.length :=
  (List.dropWhile_sublist p).length_le

/-- `replace(/\s+/g, r)`: replace every whitespace run by the single
character `r`. -/
def wsRunsTo (r : Char) : List Char → List Char
  | [] => []
  | c :: cs =>
    if isWs c then r :: wsRunsTo r (cs.dropWhile isWs)
    else c :: wsRunsTo r cs
  termination_by l => l.length
  decreasing_by
  · have := length_dropWhile_le isWs cs
    simp only [List.length_cons]
    omega
  · simp [List.length_cons]

/-- `replace(/\s+/g, " ")`: collapse every whitespace run to one space. -/
def collapseWs (l : List Char) : List Char := wsRunsTo ' ' l

/-- `sanitiseFilename` (src/note.ts, lines 11–17): strip forbidden
characters, collapse whitespace runs, trim, cap at 200 characters. -/
def sanitiseFilename (name : String) : String :=
  String.mk
    ((trimL (collapseWs (name.data.filter (fun c => !(forbiddenFilenameChar c))))).take 200)

/-- One candidate note path of the collision loop of `createPaperNote`
(`normalizePath` of the host is the identity on these simple paths). -/
def candidatePath (folder base : String) (n : Nat) : String :=
  if n = 0 then folder ++ "/" ++ base ++ ".md"
  else folder ++ "/" ++ base ++ " (" ++ toString n ++ ").md"

/-- The collision loop of `createPaperNote`: try `base.md`, `base (1).md`,
`base (2).md`, … and take the first free path.  The JS `while` loop is
unbounded but reaches its fixpoint within the first `files.length + 1`
candidates, since the candidates are pairwise distinct and at most
`files.length` of them can be occupied. -/
def allocatePath (files : List String) (folder base : String) : String :=
  match (List.range (files.length + 1)).find?
      (fun n => !(files.contains (candidatePath folder base n))) with
  | some n => candidatePath folder base n
  | none => candidatePath folder base (files.length + 1)

/-- `createPaperNote` (src/note.ts, lines 131–155) restricted to its
effect on the vault's file set: normalise the record, compute the
(collision-free) note path, create the file.  Folder creation
(`ensureFolder`) does not change the file list; the written content is
`buildFrontmatter` plus the (currently empty) body and is not needed by
the claims about this function. -/
def createPaperNote (files : List String) (paper : PaperMetadata)
    (settings : EasyPaperSettings) : String × List String :=
  let safe := normalizePaper paper.toRaw
  let base0 := sanitiseFilename safe.title
  let base := if base0 = "" then "Untitled Paper" else base0
  let path := allocatePath files settings.paperFolder base
  (path, path :: files)

/-- A concrete record, used to instantiate witnesses. -/
def examplePaper : PaperMetadata where
  title := "a"
  authors := ["Jane Doe"]
  abstract := ""
  journal := ""
  volume := ""
  issue := ""
  pages := ""
  year := some 2020
  month := none
  doi := "10.1234/x"
  doiUrl := "https://doi.org/10.1234/x"
  pdfUrl := ""
  publisher := ""
  issn := []
  subjects := []

/-! ### The import orchestration (src/ui/doi-modal.ts, lines 60–92) -/

/-- Outcome of one `DoiInputModal.submit` run. -/
inductive SubmitResult where
  | emptyInput : SubmitResult
  | errored (message : String) : SubmitResult
  | cancelledDuplicate (dupType dupPath : String) : SubmitResult
  | imported (path : String) : SubmitResult
  deriving Repr, DecidableEq

/-- The state `submit` can observe and affect: the vault's note files and
the duplicate index. -/
structure ImportState where
  files : List String
  index : IndexData
  deriving Repr, DecidableEq

/-- `DoiInputModal.submit` as a pure step.  The network call is
represented by its outcome `fetched`; the `ConfirmDuplicateModal` by the
boolean `userConfirm` (consulted only when a duplicate is surfaced with
confirmation enabled); a thrown fetch error is caught and surfaced as the
`Error importing paper: …` notice.  `submit` itself never mutates the
duplicate index — the index is updated by the host's file-create event
outside this function — so the index changes only through the returned
state's file list. -/
def submitStep (settings : EasyPaperSettings) (st : ImportState)
    (doiInput : String) (fetched : Except String PaperMetadata)
    (userConfirm : Bool) : SubmitResult × ImportState :=
  if String.mk (trimL doiInput.data) = "" then (SubmitResult.emptyInput, st)
  else
    match fetched with
    | Except.error msg =>
      (SubmitResult.errored ("Error importing paper: " ++ msg), st)
    | Except.ok paper =>
      match findDuplicate st.index (some paper.doi) (some paper.title) with
      | some dup =>
        if settings.confirmDuplicateImports && !userConfirm then
          (SubmitResult.cancelledDuplicate dup.1 dup.2, st)
        else
          let r := createPaperNote st.files paper settings
          (SubmitResult.imported r.1, { st with files := r.2 })
      | none =>
        let r := createPaperNote st.files paper settings
        (SubmitResult.imported r.1, { st with files := r.2 })

/-- C9: a non-200 response makes the fetch fail with a message containing
the status code, and the import aborts with the state (vault file list and
index) unchanged — no note file is created. -/
theorem fetch_non200_aborts (resp : HttpResponse)
    (settings : EasyPaperSettings) (st : ImportState) (doiInput : String)
    (userConfirm : Bool) (h : resp.status ≠ 200)
    (hne : String.mk (trimL doiInput.data) ≠ "") :
    fetchPaperMetadata resp =
      Except.error ("Failed to fetch DOI metadata: HTTP " ++ toString resp.status) ∧
    strHasSub (toString resp.status)
      ("Failed to fetch DOI metadata: HTTP " ++ toString resp.status) = true ∧
    submitStep settings st doiInput (fetchPaperMetadata resp) userConfirm =
      (SubmitResult.errored
        ("Error importing paper: " ++
          ("Failed to fetch DOI metadata: HTTP " ++ toString resp.status)), st) := by
  have hfetch : fetchPaperMetadata resp =
      Except.error ("Failed to fetch DOI metadata: HTTP " ++ toString resp.status) := by
    rw [fetchPaperMetadata, if_pos h]
  refine ⟨hfetch, ?_, ?_⟩
  · rw [strHasSub, String.data_append]
    exact hasSub_suffix _ _
  · rw [hfetch, submitStep, if_neg hne]

/-- C9 witness: a 404 response surfaces "404" and creates no file. -/
theorem fetch_non200_aborts_witness :
    fetchPaperMetadata { status := 404, paper := examplePaper } =
      Except.error ("Failed to fetch DOI metadata: HTTP " ++ toString 404) ∧
    strHasSub (toString 404)
      ("Failed to fetch DOI metadata: HTTP " ++ toString 404) = true ∧
    submitStep DEFAULT_SETTINGS
      { files := [], index := { byDOI := [], byTitle := [], metaVersion := some 1, metaLastBuilt := none } }
      "10.1234/x"
      (fetchPaperMetadata { status := 404, paper := examplePaper }) true =
      (SubmitResult.errored
        ("Error importing paper: " ++
          ("Failed to fetch DOI metadata: HTTP " ++ toString 404)),
       { files := [], index := { byDOI := [], byTitle := [], metaVersion := some 1, metaLastBuilt := none } }) :=
  fetch_non200_aborts { status := 404, paper := examplePaper } DEFAULT_SETTINGS
    { files := [], index := { byDOI := [], byTitle := [], metaVersion := some 1, metaLastBuilt := none } }
    "10.1234/x" true (by decide) (by decide)

/-- C3: with duplicate confirmation enabled, submitting a DOI whose
normalized form is already a (truthy) key of the byDOI index surfaces a
duplicate tagged "doi" with the indexed path, and a decline
(`userConfirm = false`) stops the import with the state — vault file list
and duplicate index — returned unchanged. -/
theorem duplicate_decline_unchanged (settings : EasyPaperSettings)
    (st : ImportState) (doiInput : String) (paper : PaperMetadata)
    (dupPath : String)
    (hconfirm : settings.confirmDuplicateImports = true)
    (hne : String.mk (trimL doiInput.data) ≠ "")
    (hd : normaliseDoi paper.doi ≠ "")
    (hlook : alookup st.index.byDOI (normaliseDoi paper.doi) = some dupPath)
    (hp : dupPath ≠ "") :
    submitStep settings st doiInput (Except.ok paper) false =
      (SubmitResult.cancelledDuplicate "doi" dupPath, st) := by
  rw [submitStep, if_neg hne]
  rw [findDuplicate_doi_case st.index paper.doi paper.title dupPath hd hlook hp]
  simp [hconfirm]

/-- C3 witness: a concrete second import of an already-indexed DOI,
declined. -/
theorem duplicate_decline_unchanged_witness :
    submitStep DEFAULT_SETTINGS
      { files := ["Papers/A.md"],
        index := { byDOI := [("10.1234/x", "Papers/A.md")],
                   byTitle := [("a", "Papers/A.md")],
                   metaVersion := some 1, metaLastBuilt := none } }
      "10.1234/x" (Except.ok examplePaper) false =
      (SubmitResult.cancelledDuplicate "doi" "Papers/A.md",
       { files := ["Papers/A.md"],
         index := { byDOI := [("10.1234/x", "Papers/A.md")],
                    byTitle := [("a", "Papers/A.md")],
                    metaVersion := some 1, metaLastBuilt := none } }) :=
  duplicate_decline_unchanged DEFAULT_SETTINGS
    { files := ["Papers/A.md"],
      index := { byDOI := [("10.1234/x", "Papers/A.md")],
                 byTitle := [("a", "Papers/A.md")],
                 metaVersion := some 1, metaLastBuilt := none } }
    "10.1234/x" examplePaper "Papers/A.md"
    (by decide) (by decide) (by decide) (by decide) (by decide)

end EPI

namespace EPI

/-! ### The frontmatter renderer (src/note.ts, lines 19–92) -/

/-- `yamlStr` (src/note.ts, lines 20–22): wrap in double quotes, escaping
backslashes and quotes.  The two sequential global `replace` calls of the
source (`\ → \\` first, then `" → \"`) amount to this single pass, since
the first pass leaves quotes alone and the second only inserts
backslashes before quotes. -/
def escapeYaml : List Char → List Char
  | [] => []
  | c :: cs =>
    if c = '\\' then '\\' :: '\\' :: escapeYaml cs
    else if c = '"' then '\\' :: '"' :: escapeYaml cs
    else c :: escapeYaml cs

def yamlStr (v : String) : String :=
  String.mk ('"' :: (escapeYaml v.data ++ ['"']))

/-- `yamlList` (src/note.ts, lines 25–29): empty string for an empty list,
otherwise a block list, quoting each entry unless `quote` is false. -/
def yamlList (key : String) (items : List String) (quote : Bool) : String :=
  if items.isEmpty then ""
  else key ++ ":\n" ++
    String.intercalate "\n"
      (items.map (fun v => "  - " ++ (if quote then yamlStr v else v)))

/-- `s.toLowerCase().replace(/\s+/g, "-")`: the tag derived from a
subject. -/
def tagify (s : String) : String := String.mk (wsRunsTo '-' (toLowerL s.data))

/-- Models `x || null` on a string: the empty string becomes `null`. -/
def orNull (s : String) : Option String := if s = "" then none else some s

/-- The `fieldRenderers` record of `buildFrontmatter` (src/note.ts, lines
46–77).  The outer `Option` is the `Record` lookup (`none` for an unknown
field name); the inner `Option` is the renderer's `string | null`
result. -/
def fieldRenderer (paper : PaperMetadata) (field : String) : Option (Option String) :=
  if field = "title" then
    some (if paper.title ≠ "" then some ("title: " ++ yamlStr paper.title) else none)
  else if field = "authors" then
    some (orNull (yamlList "authors" paper.authors true))
  else if field = "journal" then
    some (if paper.journal ≠ "" then some ("journal: " ++ yamlStr paper.journal) else none)
  else if field = "year" then
    some (paper.year.map (fun y => "year: " ++ toString y))
  else if field = "volume" then
    some (if paper.volume ≠ "" then some ("volume: " ++ yamlStr paper.volume) else none)
  else if field = "issue" then
    some (if paper.issue ≠ "" then some ("issue: " ++ yamlStr paper.issue) else none)
  else if field = "pages" then
    some (if paper.pages ≠ "" then some ("pages: " ++ yamlStr paper.pages) else none)
  else if field = "publisher" then
    some (if paper.publisher ≠ "" then some ("publisher: " ++ yamlStr paper.publisher) else none)
  else if field = "doi" then
    some (if paper.doi ≠ "" then some ("doi: " ++ yamlStr paper.doi) else none)
  else if field = "url" then
    some (if paper.doiUrl ≠ "" then some ("url: " ++ yamlStr paper.doiUrl) else none)
  else if field = "pdf" then
    some (if paper.pdfUrl ≠ "" then some ("pdf: " ++ yamlStr paper.pdfUrl) else none)
  else if field = "issn" then
    some (orNull (yamlList "issn" paper.issn true))
  else if field = "tags" then
    some (orNull (yamlList "tags" (paper.subjects.map tagify) false))
  else none

/-- `buildFrontmatter` (src/note.ts, lines 38–92) as the list of pushed
lines (the source returns `lines.join("\n")`).  The loop body skips a
field when the renderer is missing (`Option.join` collapses the unknown
case), when it returns `null`, and — `if (result)` — when it returns an
empty string (`Option.bind orNull`); `new Date().toISOString().split("T")[0]`
is the parameter `today`. -/
def buildFrontmatter (paper : PaperMetadata) (settings : EasyPaperSettings)
    (today : String) : List String :=
  ["---"] ++
  settings.metadataFields.filterMap
    (fun f => ((fieldRenderer paper f).join).bind orNull) ++
  (if settings.includeImportDate
    then ["date_imported: \"" ++ today ++ "\""] else []) ++
  ["---"]

/-- The key of an emitted frontmatter line: the text before the first
colon. -/
def lineKey (s : String) : String :=
  String.mk (s.data.takeWhile (fun c => c != ':'))

/-- The keys emitted between the two `---` delimiters. -/
def fmKeys (paper : PaperMetadata) (settings : EasyPaperSettings)
    (today : String) : List String :=
  (((buildFrontmatter paper settings today).drop 1).dropLast).map lineKey

/-- The fixed vocabulary of the frontmatter renderer. -/
def vocab : List String :=
  ["title", "authors", "journal", "year", "volume", "issue", "pages",
   "publisher", "doi", "url", "pdf", "issn", "tags"]

/-- Whether the source value that a vocabulary field renders is
non-empty. -/
def fieldHasValue (paper : PaperMetadata) (field : String) : Bool :=
  if field = "title" then paper.title != ""
  else if field = "authors" then !paper.authors.isEmpty
  else if field = "journal" then paper.journal != ""
  else if field = "year" then paper.year.isSome
  else if field = "volume" then paper.volume != ""
  else if field = "issue" then paper.issue != ""
  else if field = "pages" then paper.pages != ""
  else if field = "publisher" then paper.publisher != ""
  else if field = "doi" then paper.doi != ""
  else if field = "url" then paper.doiUrl != ""
  else if field = "pdf" then paper.pdfUrl != ""
  else if field = "issn" then !paper.issn.isEmpty
  else if field = "tags" then !paper.subjects.isEmpty
  else false

end EPI

namespace EPI

/-! ### C5: the emitted frontmatter key set -/

theorem takeWhile_append_stop {p : Char → Bool} (l : List Char) (c : Char)
    (m : List Char) (hl : ∀ d ∈ l, p d = true) (hc : p c = false) :
    ((l ++ c :: m).takeWhile p) = l := by
  induction l with
  | nil => simp [List.takeWhile_cons, hc]
  | cons d ds ih =>
    rw [List.cons_append, List.takeWhile_cons, hl d (List.mem_cons_self _ _)]
    rw [if_pos rfl, ih fun e he => hl e (List.mem_cons_of_mem _ he)]

/-- The key of a line of the form `key ++ ":" ++ …` is `key`, when `key`
contains no colon. -/
theorem lineKey_data (s : String) (key : List Char) (m : List Char)
    (hs : s.data = key ++ ':' :: m)
    (hkey : ∀ c ∈ key, (c != ':') = true) :
    lineKey s = String.mk key := by
  rw [lineKey, hs, takeWhile_append_stop key ':' m hkey (by decide)]

theorem append_ne_empty (a x : String) (ha : a.data ≠ []) : a ++ x ≠ "" := by
  intro h
  have hd := congrArg String.data h
  rw [String.data_append] at hd
  exact ha (List.append_eq_nil.mp hd).1

/-- The common scalar-field pipeline: an `if`-guarded `key: "value"` line
runs through the null filter and key extraction. -/
theorem pipeline_scalar (key v line : String)
    (hkey : ∀ c ∈ key.data, (c != ':') = true)
    (hdata : line.data = key.data ++ ':' :: (' ' :: (yamlStr v).data)) :
    (((some (if v ≠ "" then some line else none) : Option (Option String)).join).bind
        orNull).map lineKey
      = if (v != "") = true then some key else none := by
  by_cases hv : v = ""
  · rw [if_neg (fun hx : v ≠ "" => hx hv), if_neg (by simp [hv])]
    rfl
  · rw [if_pos hv, if_pos (by simp [hv])]
    have hL : line ≠ "" := by
      intro h
      have hlen := congrArg List.length hdata
      rw [h] at hlen
      rw [List.length_append, List.length_cons] at hlen
      have hzero : ("" : String).data.length = 0 := rfl
      omega
    show (orNull line).map lineKey = some key
    rw [orNull, if_neg hL, Option.map_some']
    rw [lineKey_data line key.data (' ' :: (yamlStr v).data) hdata hkey]

theorem bind_orNull_orNull (s : String) : (orNull s).bind orNull = orNull s := by
  by_cases h : s = ""
  · rw [orNull, if_pos h]
    rfl
  · rw [orNull, if_neg h]
    show orNull s = some s
    rw [orNull, if_neg h]

/-- The common list-field pipeline (`yamlList … || null`). -/
theorem pipeline_list (key : String) (items : List String) (quote : Bool)
    (hkey : ∀ c ∈ key.data, (c != ':') = true) :
    (((some (orNull (yamlList key items quote)) : Option (Option String)).join).bind
        orNull).map lineKey
      = if (!items.isEmpty) = true then some key else none := by
  by_cases hi : items.isEmpty
  · rw [yamlList, if_pos hi, if_neg (by simp [hi])]
    rfl
  · rw [yamlList, if_neg hi, if_pos (by simp [hi])]
    have hdata : (key ++ ":\n" ++
        String.intercalate "\n"
          (items.map (fun v => "  - " ++ (if quote then yamlStr v else v)))).data
        = key.data ++ ':' :: ('\n' ::
          (String.intercalate "\n"
            (items.map (fun v => "  - " ++ (if quote then yamlStr v else v)))).data) := by
      rw [String.data_append, String.data_append, List.append_assoc]
      rfl
    have hL : key ++ ":\n" ++
        String.intercalate "\n"
          (items.map (fun v => "  - " ++ (if quote then yamlStr v else v))) ≠ "" := by
      intro h
      have hd := congrArg String.data h
      rw [hdata] at hd
      have : key.data ++ ':' ::
          ('\n' :: (String.intercalate "\n"
            (items.map (fun v => "  - " ++ (if quote then yamlStr v else v)))).data)
          = [] := hd
      rcases List.append_eq_nil.mp this with ⟨-, hcons⟩
      exact List.cons_ne_nil _ _ hcons
    show ((orNull _).bind orNull).map lineKey = some key
    rw [bind_orNull_orNull, orNull, if_neg hL, Option.map_some']
    rw [lineKey_data _ key.data _ hdata hkey]

/-- Aligning a per-field condition with the vocabulary-membership form. -/
theorem if_vocab_eq (p : PaperMetadata) (f : String) (b : Bool)
    (hmem : f ∈ vocab) (hb : fieldHasValue p f = b) :
    (if b = true then some f else none)
      = if f ∈ vocab ∧ fieldHasValue p f = true then some f else none := by
  by_cases h : b = true
  · rw [if_pos h, if_pos ⟨hmem, by rw [hb]; exact h⟩]
  · rw [if_neg h, if_neg (fun hc => h (hb ▸ hc.2))]

/-- The per-field characterisation of an emitted key. -/
theorem renderKey_eq (p : PaperMetadata) (f : String) :
    (((fieldRenderer p f).join).bind orNull).map lineKey =
      if f ∈ vocab ∧ fieldHasValue p f = true then some f else none := by
  by_cases h1 : f = "title"
  · subst h1
    rw [show fieldRenderer p "title" =
        some (if p.title ≠ "" then some ("title: " ++ yamlStr p.title) else none) from rfl]
    rw [pipeline_scalar "title" p.title ("title: " ++ yamlStr p.title)
      (by decide) (by rw [String.data_append]; rfl)]
    exact if_vocab_eq p "title" _ (by decide) rfl
  by_cases h2 : f = "authors"
  · subst h2
    rw [show fieldRenderer p "authors" =
        some (orNull (yamlList "authors" p.authors true)) from rfl]
    rw [pipeline_list "authors" p.authors true (by decide)]
    exact if_vocab_eq p "authors" _ (by decide) rfl
  by_cases h3 : f = "journal"
  · subst h3
    rw [show fieldRenderer p "journal" =
        some (if p.journal ≠ "" then some ("journal: " ++ yamlStr p.journal) else none) from rfl]
    rw [pipeline_scalar "journal" p.journal ("journal: " ++ yamlStr p.journal)
      (by decide) (by rw [String.data_append]; rfl)]
    exact if_vocab_eq p "journal" _ (by decide) rfl
  by_cases h4 : f = "year"
  · subst h4
    rw [show fieldRenderer p "year" =
        some (p.year.map (fun y => "year: " ++ toString y)) from rfl]
    cases hy : p.year with
    | none =>
      rw [if_neg (by simp [fieldHasValue, hy])]
      rfl
    | some y =>
      rw [if_pos ⟨by decide, by simp [fieldHasValue, hy]⟩]
      show (orNull ("year: " ++ toString y)).map lineKey = some "year"
      rw [orNull, if_neg (append_ne_empty "year: " _ (by decide)), Option.map_some']
      rw [lineKey_data ("year: " ++ toString y) "year".data (' ' :: (toString y).data)
        (by rw [String.data_append]; rfl) (by decide)]
  by_cases h5 : f = "volume"
  · subst h5
    rw [show fieldRenderer p "volume" =
        some (if p.volume ≠ "" then some ("volume: " ++ yamlStr p.volume) else none) from rfl]
    rw [pipeline_scalar "volume" p.volume ("volume: " ++ yamlStr p.volume)
      (by decide) (by rw [String.data_append]; rfl)]
    exact if_vocab_eq p "volume" _ (by decide) rfl
  by_cases h6 : f = "issue"
  · subst h6
    rw [show fieldRenderer p "issue" =
        some (if p.issue ≠ "" then some ("issue: " ++ yamlStr p.issue) else none) from rfl]
    rw [pipeline_scalar "issue" p.issue ("issue: " ++ yamlStr p.issue)
      (by decide) (by rw [String.data_append]; rfl)]
    exact if_vocab_eq p "issue" _ (by decide) rfl
  by_cases h7 : f = "pages"
  · subst h7
    rw [show fieldRenderer p "pages" =
        some (if p.pages ≠ "" then some ("pages: " ++ yamlStr p.pages) else none) from rfl]
    rw [pipeline_scalar "pages" p.pages ("pages: " ++ yamlStr p.pages)
      (by decide) (by rw [String.data_append]; rfl)]
    exact if_vocab_eq p "pages" _ (by decide) rfl
  by_cases h8 : f = "publisher"
  · subst h8
    rw [show fieldRenderer p "publisher" =
        some (if p.publisher ≠ "" then some ("publisher: " ++ yamlStr p.publisher) else none) from rfl]
    rw [pipeline_scalar "publisher" p.publisher ("publisher: " ++ yamlStr p.publisher)
      (by decide) (by rw [String.data_append]; rfl)]
    exact if_vocab_eq p "publisher" _ (by decide) rfl
  by_cases h9 : f = "doi"
  · subst h9
    rw [show fieldRenderer p "doi" =
        some (if p.doi ≠ "" then some ("doi: " ++ yamlStr p.doi) else none) from rfl]
    rw [pipeline_scalar "doi" p.doi ("doi: " ++ yamlStr p.doi)
      (by decide) (by rw [String.data_append]; rfl)]
    exact if_vocab_eq p "doi" _ (by decide) rfl
  by_cases h10 : f = "url"
  · subst h10
    rw [show fieldRenderer p "url" =
        some (if p.doiUrl ≠ "" then some ("url: " ++ yamlStr p.doiUrl) else none) from rfl]
    rw [pipeline_scalar "url" p.doiUrl ("url: " ++ yamlStr p.doiUrl)
      (by decide) (by rw [String.data_append]; rfl)]
    exact if_vocab_eq p "url" _ (by decide) rfl
  by_cases h11 : f = "pdf"
  · subst h11
    rw [show fieldRenderer p "pdf" =
        some (if p.pdfUrl ≠ "" then some ("pdf: " ++ yamlStr p.pdfUrl) else none) from rfl]
    rw [pipeline_scalar "pdf" p.pdfUrl ("pdf: " ++ yamlStr p.pdfUrl)
      (by decide) (by rw [String.data_append]; rfl)]
    exact if_vocab_eq p "pdf" _ (by decide) rfl
  by_cases h12 : f = "issn"
  · subst h12
    rw [show fieldRenderer p "issn" =
        some (orNull (yamlList "issn" p.issn true)) from rfl]
    rw [pipeline_list "issn" p.issn true (by decide)]
    exact if_vocab_eq p "issn" _ (by decide) rfl
  by_cases h13 : f = "tags"
  · subst h13
    rw [show fieldRenderer p "tags" =
        some (orNull (yamlList "tags" (p.subjects.map tagify) false)) from rfl]
    rw [pipeline_list "tags" (p.subjects.map tagify) false (by decide)]
    have hmapempty : (p.subjects.map tagify).isEmpty = p.subjects.isEmpty := by
      cases p.subjects <;> rfl
    rw [hmapempty]
    exact if_vocab_eq p "tags" _ (by decide) rfl
  · have hr : fieldRenderer p f = none := by
      rw [fieldRenderer, if_neg h1, if_neg h2, if_neg h3, if_neg h4, if_neg h5,
        if_neg h6, if_neg h7, if_neg h8, if_neg h9, if_neg h10, if_neg h11,
        if_neg h12, if_neg h13]
    rw [hr]
    rw [if_neg (by
      rintro ⟨hmem, -⟩
      simp only [vocab, List.mem_cons, List.not_mem_nil, or_false] at hmem
      rcases hmem with h | h | h | h | h | h | h | h | h | h | h | h | h
      exacts [h1 h, h2 h, h3 h, h4 h, h5 h, h6 h, h7 h, h8 h, h9 h, h10 h,
        h11 h, h12 h, h13 h])]
    rfl

end EPI

namespace EPI

/-- C5: the set of keys emitted in the frontmatter block equals the
configured field list intersected with the fixed vocabulary and with the
fields whose source value is non-empty, plus `date_imported` exactly when
the import-date option is enabled (regardless of the configured list);
unknown configured field names are silently ignored. -/
theorem buildFrontmatter_keys (paper : PaperMetadata)
    (settings : EasyPaperSettings) (today : String) (field : String) :
    field ∈ fmKeys paper settings today ↔
      (field ∈ settings.metadataFields ∧ field ∈ vocab ∧
        fieldHasValue paper field = true) ∨
      (field = "date_imported" ∧ settings.includeImportDate = true) := by
  have hdate : lineKey ("date_imported: \"" ++ today ++ "\"") = "date_imported" :=
    lineKey_data _ "date_imported".data (' ' :: '"' :: (today.data ++ ['"']))
      (by rw [String.data_append, String.data_append, List.append_assoc]; rfl)
      (by decide)
  have hfm : fmKeys paper settings today =
      settings.metadataFields.filterMap
        (fun f => if f ∈ vocab ∧ fieldHasValue paper f = true
          then some f else none) ++
      (if settings.includeImportDate then ["date_imported"] else []) := by
    rw [fmKeys, buildFrontmatter]
    simp only [List.cons_append, List.nil_append]
    rw [List.drop_one, List.tail_cons, List.dropLast_concat, List.map_append]
    congr 1
    · rw [List.map_filterMap]
      apply List.filterMap_congr
      intro a _
      exact renderKey_eq paper a
    · by_cases himp : settings.includeImportDate
      · rw [if_pos himp, if_pos himp, List.map_cons, List.map_nil, hdate]
      · rw [if_neg himp, if_neg himp]
        rfl
  rw [hfm, List.mem_append]
  have hmem1 : field ∈ settings.metadataFields.filterMap
      (fun f => if f ∈ vocab ∧ fieldHasValue paper f = true
        then some f else none) ↔
      field ∈ settings.metadataFields ∧ field ∈ vocab ∧
        fieldHasValue paper field = true := by
    rw [List.mem_filterMap]
    constructor
    · rintro ⟨a, ha, hif⟩
      by_cases hc : a ∈ vocab ∧ fieldHasValue paper a = true
      · rw [if_pos hc] at hif
        injection hif with h
        subst h
        exact ⟨ha, hc.1, hc.2⟩
      · rw [if_neg hc] at hif
        exact absurd hif (by simp)
    · rintro ⟨ha, hv1, hv2⟩
      exact ⟨field, ha, by rw [if_pos ⟨hv1, hv2⟩]⟩
  have hmem2 : field ∈
      (if settings.includeImportDate then ["date_imported"]
        else ([] : List String)) ↔
      field = "date_imported" ∧ settings.includeImportDate = true := by
    by_cases himp : settings.includeImportDate
    · rw [if_pos himp]
      simp [himp]
    · rw [if_neg himp]
      simp [himp]
  rw [hmem1, hmem2]

end EPI

namespace EPI

/-! ### The filename template renderer (note.ts snapshot, src/unnamed/part_000) -/

/-- The `\w` class of the template token regex. -/
def isWordChar (c : Char) : Bool :=
  ('a' ≤ c && c ≤ 'z') || ('A' ≤ c && c ≤ 'Z') ||
  ('0' ≤ c && c ≤ '9') || c = '_'

/-- `split(/\s+/)` on a character list: the maximal non-whitespace runs
(structurally, via an accumulator). -/
def splitWsAux (cur : List Char) : List Char → List (List Char)
  | [] => if cur.isEmpty then [] else [cur.reverse]
  | c :: cs =>
    if isWs c then
      if cur.isEmpty then splitWsAux [] cs
      else cur.reverse :: splitWsAux [] cs
    else splitWsAux (c :: cur) cs

def splitWsL (l : List Char) : List (List Char) := splitWsAux [] l

/-- The anchored `replace(/[.,;]$/g, "")`: strip one trailing `.`/`,`/`;`
(the anchor admits at most one match). -/
def stripTrailPunct (l : List Char) : List Char :=
  match l.getLast? with
  | some c => if c = '.' || c = ',' || c = ';' then l.dropLast else l
  | none => l

/-- `getAuthorSurname` (part_000, lines 22–27): the last
whitespace-delimited token of the trimmed name, with trailing punctuation
stripped.  `name.trim().split(/\s+/)` on an all-whitespace name yields
`[""]` whose last element strips to `""`, which coincides with the
empty-parts default here. -/
def getAuthorSurname (name : String) : String :=
  if name = "" then ""
  else String.mk (stripTrailPunct ((splitWsL (trimL name.data)).getLast?.getD []))

/-- The value substituted for one template token (part_000, lines 36–54).
The author tokens return `surname` for both the multi-author and the
single-author case: the source's ternary
`paper.authors.length > 1 ? \`${surname}\` : surname` produces the same
string in both branches. -/
def filenameToken (paper : PaperMetadata) (tok : List Char) : String :=
  let t := String.mk tok
  if t = "title" then paper.title
  else if t = "year" then
    match paper.year with
    | some y => toString y
    | none => ""
  else if t = "doi" then paper.doi
  else if t = "authors" || t = "first_authors" || t = "first_author" then
    if paper.authors.isEmpty then ""
    else
      if paper.authors.length > 1 then getAuthorSurname (paper.authors.headD "")
      else getAuthorSurname (paper.authors.headD "")
  else ""

/-- One attempted match of `\s*(\w+)\s*}}` (the part after the two opening
braces of the token regex).  Greediness is exact here because `\s`, `\w`
and the closing braces are pairwise disjoint character classes, so the
regex engine never profits from backtracking. -/
def tokenScan (cs : List Char) : Option (List Char × List Char) :=
  if ((cs.dropWhile isWs).takeWhile isWordChar).isEmpty then none
  else
    match ((cs.dropWhile isWs).dropWhile isWordChar).dropWhile isWs with
    | '}' :: '}' :: rest =>
      some ((cs.dropWhile isWs).takeWhile isWordChar, rest)
    | _ => none

/-- The global token replacement of `renderFilenameTemplate`.  The `fuel`
argument makes the recursion structural (and hence computable by the
kernel); every step consumes at least one input character, so
`fuel = input length` never runs out. -/
def rftFuel (paper : PaperMetadata) : Nat → List Char → List Char
  | 0, _ => []
  | _ + 1, [] => []
  | fuel + 1, '{' :: '{' :: cs =>
    match tokenScan cs with
    | some (w, rest) => (filenameToken paper w).data ++ rftFuel paper fuel rest
    | none => '{' :: rftFuel paper fuel ('{' :: cs)
  | fuel + 1, c :: cs => c :: rftFuel paper fuel cs

/-- `renderFilenameTemplate` (part_000, lines 34–55). -/
def renderFilenameTemplate (template : String) (paper : PaperMetadata) : String :=
  if template = "" then ""
  else String.mk (rftFuel paper template.data.length template.data)

/-- C8: evaluation at the failing input.  The surname extraction and the
empty value of unknown tokens behave as claimed, but the multi-author
rendering is byte-for-byte identical to the single-author rendering — the
source's own comment promises `"Surname et al." if multiple authors`,
while its ternary returns the bare surname in both branches. -/
theorem renderFilenameTemplate_multi_author_not_marked :
    getAuthorSurname "Jane Doe" = "Doe" ∧
    renderFilenameTemplate "\x7b\x7bauthors\x7d\x7d"
      { examplePaper with authors := ["Jane Doe", "John Smith"] } = "Doe" ∧
    renderFilenameTemplate "\x7b\x7bauthors\x7d\x7d"
      { examplePaper with authors := ["Jane Doe"] } = "Doe" ∧
    renderFilenameTemplate "\x7b\x7bunknown_token\x7d\x7d" examplePaper = "" := by
  exact ⟨by decide, by decide, by decide, by decide⟩

end EPI

/-! More concrete checks of the template renderer. -/

example :
    EPI.renderFilenameTemplate "\x7b\x7bfirst_authors\x7d\x7d_\x7b\x7byear\x7d\x7d"
      EPI.examplePaper = "Doe_2020" := by decide
example : EPI.getAuthorSurname "Gauss, Carl F." = "F" := by decide
example : EPI.getAuthorSurname "  " = "" := by decide
example :
    EPI.renderFilenameTemplate "\x7b\x7b year \x7d\x7d" EPI.examplePaper
      = "2020" := by decide
example :
    EPI.renderFilenameTemplate "\x7b\x7b\x7btitle\x7d\x7d\x7d" EPI.examplePaper
      = "\x7ba\x7d" := by decide
